import Mathlib

/-!
Verification of the sfs-res-mon work-hours tracker core.

Part 1 embeds the daily reconstruction engine of
`src/components/TimeEntryUtils.tsx` (types `TimeEntryPair`, `DailyRecord`,
functions `isSameLocalDay`, `formatDuration`, `cleanupMiddleRecord`,
`cleanupDailyRecords`, `processTimeEntries`).

Part 2 embeds the sequence-validator backend of `src/backend/work_clock.go`
(`isCurrentlyClockedIn`, `clockInOut`, `deleteClockInOutPair`,
`checkValidity`).

Timestamps are modelled as integers (milliseconds since the epoch, the value
of JavaScript `Date.prototype.getTime`).  The JavaScript `Date` local-calendar
accessors (`getFullYear`/`getMonth`/`getDate`) are modelled by an explicit
parameter `ld : Int → LocalDate` mapping an instant to its local calendar
date; `utcLocal` below instantiates it with the standard proleptic-Gregorian
civil calendar of a UTC-local host.
-/

/-- Calendar date as produced by the JavaScript local accessors; `month` is
1-based (the source always uses `getMonth() + 1` when rendering, and only
compares months for equality otherwise). -/
structure LocalDate where
  year : Int
  month : Int
  day : Int
deriving Repr, DecidableEq

/-- Digit padding `String(n).padStart(2, "0")` from the bucket-key template in
`processTimeEntries`. -/
def padTwo (n : Int) : String :=
  let s := toString n
  if s.length < 2 then "0" ++ s else s

/-- Bucket key `${getFullYear()}-${pad(getMonth()+1)}-${pad(getDate())}`
built in the first pass of `processTimeEntries` (with `month` already
1-based here). -/
def dateKey (d : LocalDate) : String :=
  toString d.year ++ "-" ++ padTwo d.month ++ "-" ++ padTwo d.day

/-- Source `isSameLocalDay` (TimeEntryUtils.tsx): compares `getDate`,
`getMonth` and `getFullYear` of the two instants, i.e. equality of the local
calendar dates. -/
def isSameLocalDay (ld : Int → LocalDate) (a b : Int) : Bool :=
  ld a = ld b

/-- Hinnant civil-from-days conversion: day number relative to 1970-01-01
to proleptic-Gregorian (year, month, day). -/
def civilFromDays (z0 : Int) : LocalDate :=
  let z := z0 + 719468
  let era := Int.fdiv z 146097
  let doe := z - era * 146097
  let yoe := Int.fdiv (doe - Int.fdiv doe 1460 + Int.fdiv doe 36524 - Int.fdiv doe 146096) 365
  let y := yoe + era * 400
  let doy := doe - (365 * yoe + Int.fdiv yoe 4 - Int.fdiv yoe 100)
  let mp := Int.fdiv (5 * doy + 2) 153
  let d := doy - Int.fdiv (153 * mp + 2) 5 + 1
  let m := mp + (if mp < 10 then 3 else -9)
  ⟨y + (if m ≤ 2 then 1 else 0), m, d⟩

/-- Local-date map of a host whose local timezone is UTC: milliseconds to
civil date. -/
def utcLocal (t : Int) : LocalDate :=
  civilFromDays (Int.fdiv t 86400000)

/-- Source `formatDuration` (TimeEntryUtils.tsx): milliseconds to
`HH:MM:SS` with floor division and zero padding.  JavaScript `%` is the
truncated remainder, `Int.tmod`. -/
def formatDuration (milliseconds : Int) : String :=
  let totalSeconds := Int.fdiv milliseconds 1000
  let hours := Int.fdiv totalSeconds 3600
  let minutes := Int.fdiv (Int.tmod totalSeconds 3600) 60
  let seconds := Int.tmod totalSeconds 60
  padTwo hours ++ ":" ++ padTwo minutes ++ ":" ++ padTwo seconds

/-- Source `TimeStampEntry` (services/workClock.ts): timestamp plus the kind
flag (`clock_in = true` for clock-in, `false` for clock-out). -/
structure TimeStampEntry where
  timestamp : Int
  clock_in : Bool
deriving Repr, DecidableEq

/-- Source `TimeEntryPair` (TimeEntryUtils.tsx). -/
structure TimeEntryPair where
  clockIn : Option Int
  clockOut : Option Int
  duration : Int
  dayBoundary : Bool
  missingEntry : Bool
deriving Repr, DecidableEq

/-- Source `DailyRecord` (TimeEntryUtils.tsx). -/
structure DailyRecord where
  date : String
  entryPairs : List TimeEntryPair
  totalTime : Int
  formattedTotal : String
  hasMissingEntries : Bool
  isActive : Bool
deriving Repr, DecidableEq

/-- One step of building the `entriesByDate` record: pushes the entry onto
the list stored under its key, creating the key at the end on first use
(JavaScript plain-object insertion order for non-index string keys). -/
def insertByDate (m : List (String × List TimeStampEntry)) (key : String)
    (e : TimeStampEntry) : List (String × List TimeStampEntry) :=
  match m with
  | [] => [(key, [e])]
  | (k, es) :: rest =>
      if k = key then (k, es ++ [e]) :: rest
      else (k, es) :: insertByDate rest key e

/-- First pass of `processTimeEntries`: group entries by the local calendar
day of their own timestamp, keyed by the formatted date string. -/
def groupByDate (ld : Int → LocalDate) (entries : List TimeStampEntry) :
    List (String × List TimeStampEntry) :=
  entries.foldl (fun m e => insertByDate m (dateKey (ld e.timestamp)) e) []

/-- Stable insertion of an entry into a timestamp-ascending list: the new
element goes after every existing element with a smaller-or-equal timestamp,
modelling the stable JavaScript `sort((a, b) => a.timestamp - b.timestamp)`. -/
def insertAscEntry (e : TimeStampEntry) : List TimeStampEntry → List TimeStampEntry
  | [] => [e]
  | x :: xs =>
      if e.timestamp < x.timestamp then e :: x :: xs
      else x :: insertAscEntry e xs

/-- Stable ascending sort of one day bucket by timestamp. -/
def sortByTs (l : List TimeStampEntry) : List TimeStampEntry :=
  l.foldl (fun acc e => insertAscEntry e acc) []

/-- Mutable loop state of the pairing scan inside `processTimeEntries`:
`entryPairs`, `totalTime`, `hasMissingEntries` and `isActive`. -/
structure DayAcc where
  pairs : List TimeEntryPair
  totalTime : Int
  hasMissingEntries : Bool
  isActive : Bool
deriving Repr, DecidableEq

/-- Pairing scan of `processTimeEntries` over one sorted day bucket.  A
clock-in followed (inside the bucket) by a clock-out is paired with it, with
`dayBoundary = !isSameLocalDay`; a clock-in not followed by a clock-out is
open: `missingEntry` iff it is not the last entry of the bucket, `isActive`
(re)assigned to whether it is the last; a clock-out reached by the scan is an
orphan pair.  `totalTime` adds a pair's duration iff `!missingEntry ||
isActive` at that point.  `now` models `new Date().getTime()`. -/
def pairLoop (ld : Int → LocalDate) (now : Int) :
    List TimeStampEntry → DayAcc → DayAcc
  | [], acc => acc
  | [e], acc =>
      if e.clock_in then
        { acc with
          pairs := acc.pairs ++
            [⟨some e.timestamp, none, now - e.timestamp, false, false⟩]
          totalTime := acc.totalTime + (now - e.timestamp)
          isActive := true }
      else
        { acc with
          pairs := acc.pairs ++ [⟨none, some e.timestamp, 0, false, true⟩]
          hasMissingEntries := true }
  | e :: next :: rest2, acc =>
      if e.clock_in then
        if next.clock_in then
          pairLoop ld now (next :: rest2)
            { acc with
              pairs := acc.pairs ++
                [⟨some e.timestamp, none, now - e.timestamp, false, true⟩]
              hasMissingEntries := true
              isActive := false }
        else
          pairLoop ld now rest2
            { acc with
              pairs := acc.pairs ++
                [⟨some e.timestamp, some next.timestamp,
                  next.timestamp - e.timestamp,
                  !isSameLocalDay ld e.timestamp next.timestamp, false⟩]
              totalTime := acc.totalTime + (next.timestamp - e.timestamp) }
      else
        pairLoop ld now (next :: rest2)
          { acc with
            pairs := acc.pairs ++ [⟨none, some e.timestamp, 0, false, true⟩]
            hasMissingEntries := true }

/-- Per-pair step of `cleanupMiddleRecord`: a pair missing either side is
flagged missing with duration zeroed; complete pairs are untouched. -/
def cleanupPair (p : TimeEntryPair) : TimeEntryPair :=
  if p.clockIn = none ∨ p.clockOut = none then
    { p with missingEntry := true, duration := 0, dayBoundary := false }
  else p

/-- Complete-pair test used when `cleanupMiddleRecord` re-sums the total. -/
def isCompletePair (p : TimeEntryPair) : Bool :=
  !(p.clockIn = none) && !(p.clockOut = none)

/-- Source `cleanupMiddleRecord` (TimeEntryUtils.tsx): a non-head record
still flagged active is demoted — `hasMissingEntries := true`,
`isActive := false`, incomplete pairs zeroed and flagged missing, and the
total re-summed over complete pairs only. -/
def cleanupMiddleRecord (record : DailyRecord) : DailyRecord :=
  if !record.isActive then record
  else
    let total := ((record.entryPairs.filter isCompletePair).map
      (fun p => p.duration)).foldl (· + ·) 0
    { record with
      hasMissingEntries := true
      isActive := false
      entryPairs := record.entryPairs.map cleanupPair
      totalTime := total
      formattedTotal := formatDuration total }

/-- Lexicographic comparison of character lists by code point, the ordering
`localeCompare` yields on the all-ASCII `YYYY-MM-DD` keys. -/
def charListLt : List Char → List Char → Bool
  | _, [] => false
  | [], _ :: _ => true
  | a :: as, b :: bs =>
      if a.toNat < b.toNat then true
      else if b.toNat < a.toNat then false
      else charListLt as bs

/-- String comparison used for the date-descending record sort. -/
def strLt (a b : String) : Bool := charListLt a.data b.data

/-- Stable insertion of a record into a date-descending list, modelling the
stable JavaScript `sort((a, b) => b.date.localeCompare(a.date))`. -/
def insertDescRecord (r : DailyRecord) : List DailyRecord → List DailyRecord
  | [] => [r]
  | x :: xs =>
      if strLt x.date r.date then r :: x :: xs
      else x :: insertDescRecord r xs

/-- Stable descending sort of the daily records by date string. -/
def sortRecDesc (l : List DailyRecord) : List DailyRecord :=
  l.foldl (fun acc r => insertDescRecord r acc) []

/-- Day-boundary recomputation applied to the last pair of the head record in
`cleanupDailyRecords`: when that pair's clock-in exists, its `dayBoundary` is
reassigned to `isSameLocalDay(clockIn, clockOut ?? new Date())`. -/
def fixLastPair (ld : Int → LocalDate) (now : Int)
    (pairs : List TimeEntryPair) : List TimeEntryPair :=
  match pairs.getLast? with
  | none => pairs
  | some p =>
      match p.clockIn with
      | none => pairs
      | some ci =>
          pairs.dropLast ++
            [{ p with dayBoundary := isSameLocalDay ld ci (p.clockOut.getD now) }]

/-- Source `cleanupDailyRecords` (TimeEntryUtils.tsx): sort records newest
first, demote every record after the first via `cleanupMiddleRecord`, then,
if the first record is active and has pairs, recompute the last pair's
`dayBoundary` against `now` (or the pair's clock-out when present). -/
def cleanupDailyRecords (ld : Int → LocalDate) (now : Int)
    (records : List DailyRecord) : List DailyRecord :=
  match sortRecDesc records with
  | [] => []
  | r :: rest =>
      let r' :=
        if r.isActive && decide (0 < r.entryPairs.length) then
          { r with entryPairs := fixLastPair ld now r.entryPairs }
        else r
      r' :: rest.map cleanupMiddleRecord

/-- Source `processTimeEntries` (TimeEntryUtils.tsx): group the entries by
the local day of their own timestamp, sort each bucket ascending, run the
pairing scan per bucket, then `cleanupDailyRecords`. -/
def processTimeEntries (ld : Int → LocalDate) (now : Int)
    (entries : List TimeStampEntry) : List DailyRecord :=
  let dailyRecords := (groupByDate ld entries).map (fun g =>
    let acc := pairLoop ld now (sortByTs g.2) ⟨[], 0, false, false⟩
    { date := g.1
      entryPairs := acc.pairs
      totalTime := acc.totalTime
      formattedTotal := formatDuration acc.totalTime
      hasMissingEntries := acc.hasMissingEntries
      isActive := acc.isActive })
  cleanupDailyRecords ld now dailyRecords

/-!
Part 2: the sequence-validator backend of `src/backend/work_clock.go`.

A `work_clock` collection row carries an id, a timestamp and the boolean
`clock_in` field.  The PocketBase queries used by the module are modelled
over a plain list of rows: `FindRecordsByFilter` with sort `"+timestamp"`
(resp. `"-timestamp"`) and limit 1 returns the head of a stable ascending
(resp. descending) sort by timestamp of the rows matching the filter.
Mutating operations take the log and return `Except` — an error result
models the Go error return, under which the transaction leaves the log
unchanged.
-/

/-- Row of the `work_clock` collection. -/
structure WorkRecord where
  id : String
  timestamp : Int
  clock_in : Bool
deriving Repr, DecidableEq

/-- Stable insertion into a timestamp-ascending record list. -/
def insertAscRecord (e : WorkRecord) : List WorkRecord → List WorkRecord
  | [] => [e]
  | x :: xs =>
      if e.timestamp < x.timestamp then e :: x :: xs
      else x :: insertAscRecord e xs

/-- Stable ascending sort by timestamp (DB sort `"+timestamp"`). -/
def sortAscRecords (l : List WorkRecord) : List WorkRecord :=
  l.foldl (fun acc e => insertAscRecord e acc) []

/-- Stable insertion into a timestamp-descending record list. -/
def insertDescWorkRecord (e : WorkRecord) : List WorkRecord → List WorkRecord
  | [] => [e]
  | x :: xs =>
      if x.timestamp < e.timestamp then e :: x :: xs
      else x :: insertDescWorkRecord e xs

/-- Stable descending sort by timestamp (DB sort `"-timestamp"`). -/
def sortDescRecords (l : List WorkRecord) : List WorkRecord :=
  l.foldl (fun acc e => insertDescWorkRecord e acc) []

/-- Query `FindRecordsByFilter("work_clock", "timestamp > t", "+timestamp",
1, 0)`: the earliest record strictly after `t`. -/
def succeedingRecord (log : List WorkRecord) (t : Int) : Option WorkRecord :=
  (sortAscRecords (log.filter (fun r => t < r.timestamp))).head?

/-- Query `FindRecordsByFilter("work_clock", "timestamp < t", "-timestamp",
1, 0)`: the latest record strictly before `t`. -/
def precedingRecord (log : List WorkRecord) (t : Int) : Option WorkRecord :=
  (sortDescRecords (log.filter (fun r => r.timestamp < t))).head?

/-- Query `FindRecordsByFilter("work_clock", "", "-timestamp", 1, 0)` used by
`isCurrentlyClockedIn`: at most one record, the latest of the log.  The
`Except` wrapper models the error return of the store; the pure model's
query itself always succeeds. -/
def findLatestQuery (log : List WorkRecord) : Except String (List WorkRecord) :=
  .ok ((sortDescRecords log).take 1)

/-- Source `isCurrentlyClockedIn` (work_clock.go): propagate a failed query;
otherwise false for an empty result and the latest record's `clock_in` flag
else. -/
def isCurrentlyClockedIn (queryResult : Except String (List WorkRecord)) :
    Except String Bool :=
  match queryResult with
  | .error e => .error ("failed to find latest work clock record: " ++ e)
  | .ok records =>
      match records with
      | [] => .ok false
      | r :: _ => .ok r.clock_in

/-- Source `clockInOut` (work_clock.go): the append-at-now path behind
clockIn()/clockOut()/toggle().  Reads the current state, rejects the request
when the requested kind equals the current state, and otherwise appends a
new record at the current time.  `newId` models the storage-assigned id. -/
def clockInOut (log : List WorkRecord) (clockIn : Bool) (now : Int)
    (newId : String) : Except String (List WorkRecord) :=
  match isCurrentlyClockedIn (findLatestQuery log) with
  | .error e => .error ("failed to check current clock status: " ++ e)
  | .ok isClockedIn =>
      if isClockedIn = clockIn then
        .error ("already clocked " ++ (if isClockedIn then "in" else "out"))
      else
        .ok (log ++ [⟨newId, now, clockIn⟩])

/-- Source `deleteClockInOutPair` (work_clock.go), faithful to its conditions
as written: find the record (error when absent), error when it is not a
clock-in, look up the record strictly next in time, error when that
succeeding record exists and its `clock_in` field is false, and otherwise
delete the record and the succeeding record (when present) in one
transaction. -/
def deleteClockInOutPair (log : List WorkRecord) (clockInID : String) :
    Except String (List WorkRecord) :=
  match log.find? (fun r => r.id = clockInID) with
  | none => .error ("failed to find work clock record with id " ++ clockInID)
  | some record =>
      if !record.clock_in then
        .error ("record with id " ++ clockInID ++ " is not a clock in record")
      else
        match succeedingRecord log record.timestamp with
        | some s =>
            if !s.clock_in then
              .error ("succeeding record with id " ++ s.id ++
                " is not a clock out record")
            else
              .ok ((log.filter (fun r => r.id ≠ record.id)).filter
                (fun r => r.id ≠ s.id))
        | none => .ok (log.filter (fun r => r.id ≠ record.id))

/-- Source `checkValidity` (work_clock.go), faithful to its conditions as
written: error on an empty id or an unknown id; error when the nearest
strictly-later record exists and its `clock_in` field differs from the
record's; error when the nearest strictly-earlier record exists and its
`clock_in` field equals the record's. -/
def checkValidity (log : List WorkRecord) (workClockID : String) :
    Except String Unit :=
  if workClockID = "" then .error "work clock ID cannot be empty"
  else
    match log.find? (fun r => r.id = workClockID) with
    | none =>
        .error ("failed to find work clock record with id " ++ workClockID)
    | some record =>
        match succeedingRecord log record.timestamp with
        | some s =>
            if s.clock_in ≠ record.clock_in then
              .error ("expected the succeeding work clock record with id " ++
                s.id ++
                (if record.clock_in then " to be a clock out record"
                 else " to be a clock in record"))
            else
              match precedingRecord log record.timestamp with
              | some p =>
                  if p.clock_in = record.clock_in then
                    .error
                      ("expected the preceding work clock record with id " ++
                       p.id ++
                       (if record.clock_in then " to be a clock out record"
                        else " to be a clock in record"))
                  else .ok ()
              | none => .ok ()
        | none =>
            match precedingRecord log record.timestamp with
            | some p =>
                if p.clock_in = record.clock_in then
                  .error
                    ("expected the preceding work clock record with id " ++
                     p.id ++
                     (if record.clock_in then " to be a clock out record"
                      else " to be a clock in record"))
                else .ok ()
            | none => .ok ()

/-! Helper lemmas. -/

/-- A record that went through `cleanupMiddleRecord` is never active. -/
theorem cleanupMiddleRecord_not_active (r : DailyRecord) :
    (cleanupMiddleRecord r).isActive = false := by
  cases h : r.isActive <;> simp [cleanupMiddleRecord, h]

/-- Every record in the tail of a `cleanupDailyRecords` result is inactive. -/
theorem cleanupDailyRecords_tail_not_active (ld : Int → LocalDate) (now : Int)
    (records : List DailyRecord) (r : DailyRecord)
    (hr : r ∈ (cleanupDailyRecords ld now records).tail) : r.isActive = false := by
  unfold cleanupDailyRecords at hr
  cases h : sortRecDesc records with
  | nil => rw [h] at hr; simp at hr
  | cons x xs =>
      rw [h] at hr
      simp only [List.tail_cons] at hr
      obtain ⟨y, _, rfl⟩ := List.mem_map.mp hr
      exact cleanupMiddleRecord_not_active y

/-- At most the head of a `cleanupDailyRecords` result is active. -/
theorem cleanupDailyRecords_countP_active (ld : Int → LocalDate) (now : Int)
    (records : List DailyRecord) :
    (cleanupDailyRecords ld now records).countP (fun r => r.isActive) ≤ 1 := by
  unfold cleanupDailyRecords
  cases h : sortRecDesc records with
  | nil => simp
  | cons x xs =>
      simp only [List.countP_cons]
      have hzero : (List.map cleanupMiddleRecord xs).countP
          (fun r => r.isActive) = 0 := by
        rw [List.countP_eq_zero]
        intro a ha
        obtain ⟨y, _, rfl⟩ := List.mem_map.mp ha
        simp [cleanupMiddleRecord_not_active y]
      rw [hzero]
      split <;> simp <;> split <;> simp

/-- Membership after a descending insertion comes from the new element or
the old list. -/
theorem mem_insertDescWorkRecord {y e : WorkRecord} {l : List WorkRecord}
    (h : y ∈ insertDescWorkRecord e l) : y = e ∨ y ∈ l := by
  induction l with
  | nil => simpa [insertDescWorkRecord] using h
  | cons x xs ih =>
      simp only [insertDescWorkRecord] at h
      by_cases hc : x.timestamp < e.timestamp
      · rw [if_pos hc] at h
        rcases List.mem_cons.mp h with h1 | h1
        · exact Or.inl h1
        · exact Or.inr h1
      · rw [if_neg hc] at h
        rcases List.mem_cons.mp h with h1 | h1
        · exact Or.inr (List.mem_cons.mpr (Or.inl h1))
        · rcases ih h1 with h2 | h2
          · exact Or.inl h2
          · exact Or.inr (List.mem_cons.mpr (Or.inr h2))

/-- Membership in the descending-sort fold comes from the accumulator or the
input list. -/
theorem mem_sortDescRecords_fold (l : List WorkRecord) :
    ∀ (acc : List WorkRecord) (y : WorkRecord),
      y ∈ l.foldl (fun acc e => insertDescWorkRecord e acc) acc →
        y ∈ acc ∨ y ∈ l := by
  induction l with
  | nil => intro acc y h; exact Or.inl h
  | cons x xs ih =>
      intro acc y h
      rcases ih (insertDescWorkRecord x acc) y h with h' | h'
      · rcases mem_insertDescWorkRecord h' with h'' | h''
        · exact Or.inr (by simp [h''])
        · exact Or.inl h''
      · exact Or.inr (List.mem_cons_of_mem _ h')

/-- Every member of the descending sort is a member of the input. -/
theorem mem_of_mem_sortDescRecords {l : List WorkRecord} {y : WorkRecord}
    (h : y ∈ sortDescRecords l) : y ∈ l := by
  rcases mem_sortDescRecords_fold l [] y h with h' | h'
  · simp at h'
  · exact h'

/-- Appending a record strictly later than every existing one puts it at the
head of the descending sort. -/
theorem sortDescRecords_append_latest (l : List WorkRecord) (e : WorkRecord)
    (h : ∀ x ∈ l, x.timestamp < e.timestamp) :
    sortDescRecords (l ++ [e]) = e :: sortDescRecords l := by
  unfold sortDescRecords
  rw [List.foldl_append]
  show insertDescWorkRecord e (sortDescRecords l) = e :: sortDescRecords l
  cases hs : sortDescRecords l with
  | nil => rfl
  | cons x xs =>
      have hx : x ∈ l :=
        mem_of_mem_sortDescRecords (by rw [hs]; exact List.mem_cons_self x xs)
      unfold insertDescWorkRecord
      rw [if_pos (h x hx)]

/-- Code-point comparison of a character list with itself is false. -/
theorem charListLt_irrefl (l : List Char) : charListLt l l = false := by
  induction l with
  | nil => rfl
  | cons a as ih => simp [charListLt, Nat.lt_irrefl, ih]

/-- String comparison of a string with itself is false. -/
theorem strLt_irrefl (s : String) : strLt s s = false :=
  charListLt_irrefl s.data

/-! Claim theorems. -/

/-- C1: the spec says `checkValidity` fails exactly when a strict temporal
neighbor of the same kind exists.  The code's succeeding-neighbor condition
is inverted (`!=` where its own error messages demand `==`): on the valid
alternating log `[clock-in a@1000, clock-out b@2000]` validating `a` fails,
while on the invalid log `[clock-in a@1000, clock-in b@2000]` (same-kind
successor) validating `a` succeeds. -/
theorem checkValidity_succeeding_inverted :
    checkValidity [⟨"a", 1000, true⟩, ⟨"b", 2000, false⟩] "a" =
      .error ("expected the succeeding work clock record with id b" ++
        " to be a clock out record") ∧
    checkValidity [⟨"a", 1000, true⟩, ⟨"b", 2000, true⟩] "a" = .ok () := by
  constructor <;> rfl

/-- C2: the spec says delete-pair fails when the immediately-following event
is not a clock-out and otherwise removes the clock-in together with that
clock-out.  The code's condition is inverted: with the valid pair
`[clock-in a@1000, clock-out b@2000]` deleting `a` is rejected, while with
the inconsistent log `[clock-in a@1000, clock-in b@2000]` deleting `a`
removes both clock-ins. -/
theorem deleteClockInOutPair_inverted :
    deleteClockInOutPair [⟨"a", 1000, true⟩, ⟨"b", 2000, false⟩] "a" =
      .error "succeeding record with id b is not a clock out record" ∧
    deleteClockInOutPair [⟨"a", 1000, true⟩, ⟨"b", 2000, true⟩] "a" =
      .ok [] := by
  constructor <;> rfl

/-- C3: the spec says the clock-in at 2025-01-01T23:30 is paired with the
clock-out at 2025-01-02T00:30 from the global sorted sequence, giving one
`EntryPair` under "2025-01-01" with `dayBoundary = true` and duration
3600000 ms.  The code pairs only inside one day bucket, so the session is
split instead: an orphan clock-out record under "2025-01-02" and a
missing-flagged, zero-duration clock-in record under "2025-01-01", for every
value of `now`. -/
theorem processTimeEntries_midnight_split :
    ∀ now : Int,
      processTimeEntries utcLocal now
        [⟨1735774200000, true⟩, ⟨1735777800000, false⟩] =
      [{ date := "2025-01-02"
         entryPairs := [⟨none, some 1735777800000, 0, false, true⟩]
         totalTime := 0
         formattedTotal := "00:00:00"
         hasMissingEntries := true
         isActive := false },
       { date := "2025-01-01"
         entryPairs := [⟨some 1735774200000, none, 0, false, true⟩]
         totalTime := 0
         formattedTotal := "00:00:00"
         hasMissingEntries := true
         isActive := false }] :=
  fun _ => rfl

/-- C4: the spec says the normalization pass recomputes the active record's
last-pair `dayBoundary` so that it is true exactly when the clock-in's local
day differs from "now".  The code assigns `isSameLocalDay(...)` without
negation: for a single clock-in at 2025-01-01T23:30 with `now` one minute
later on the same local day, the two days are equal yet the resulting
`dayBoundary` is `true`. -/
theorem cleanup_dayBoundary_inverted :
    utcLocal 1735774200000 = utcLocal 1735774260000 ∧
    processTimeEntries utcLocal 1735774260000 [⟨1735774200000, true⟩] =
      [{ date := "2025-01-01"
         entryPairs := [⟨some 1735774200000, none, 60000, true, false⟩]
         totalTime := 60000
         formattedTotal := "00:01:00"
         hasMissingEntries := false
         isActive := true }] := by
  constructor <;> rfl

/-- C5: in every reconstruction output at most one `DailyRecord` is active,
and every record after the first is inactive. -/
theorem processTimeEntries_at_most_one_active (ld : Int → LocalDate)
    (now : Int) (entries : List TimeStampEntry) :
    (processTimeEntries ld now entries).countP (fun r => r.isActive) ≤ 1 ∧
    ∀ r ∈ (processTimeEntries ld now entries).tail, r.isActive = false := by
  refine ⟨cleanupDailyRecords_countP_active ld now _, fun r hr => ?_⟩
  exact cleanupDailyRecords_tail_not_active ld now _ r hr

/-- C5 witness: on the concrete two-day input the count of active records is
at most one and the concrete tail record is inactive. -/
theorem processTimeEntries_at_most_one_active_witness :
    (processTimeEntries utcLocal 1735779000000
      [⟨1735774200000, true⟩, ⟨1735777800000, false⟩]).countP
        (fun r => r.isActive) ≤ 1 ∧
    ({ date := "2025-01-01"
       entryPairs := [⟨some 1735774200000, none, 0, false, true⟩]
       totalTime := 0
       formattedTotal := "00:00:00"
       hasMissingEntries := true
       isActive := false } : DailyRecord).isActive = false := by
  refine ⟨(processTimeEntries_at_most_one_active utcLocal 1735779000000
    [⟨1735774200000, true⟩, ⟨1735777800000, false⟩]).1, ?_⟩
  exact (processTimeEntries_at_most_one_active utcLocal 1735779000000
    [⟨1735774200000, true⟩, ⟨1735777800000, false⟩]).2 _ (by decide)

/-- C6: for two clock-in events at D1 < D2 and nothing else, D1's pair is
flagged missing with its duration excluded from its day's total (zeroed when
the days differ, excluded from the running total when they share a day), and
D2's pair — the chronologically last event — carries the single active
session (its record is the one active record, first in the output).  The
hypothesis on the date keys states that the local-day key is monotone in the
instant, which every real calendar satisfies. -/
theorem processTimeEntries_two_clockIns (ld : Int → LocalDate)
    (now D1 D2 : Int) (hlt : D1 < D2) :
    (dateKey (ld D1) = dateKey (ld D2) →
      processTimeEntries ld now [⟨D1, true⟩, ⟨D2, true⟩] =
        [{ date := dateKey (ld D2)
           entryPairs := [⟨some D1, none, now - D1, false, true⟩,
                          ⟨some D2, none, now - D2,
                            isSameLocalDay ld D2 now, false⟩]
           totalTime := now - D2
           formattedTotal := formatDuration (now - D2)
           hasMissingEntries := true
           isActive := true }]) ∧
    (strLt (dateKey (ld D1)) (dateKey (ld D2)) = true →
      processTimeEntries ld now [⟨D1, true⟩, ⟨D2, true⟩] =
        [{ date := dateKey (ld D2)
           entryPairs := [⟨some D2, none, now - D2,
                            isSameLocalDay ld D2 now, false⟩]
           totalTime := now - D2
           formattedTotal := formatDuration (now - D2)
           hasMissingEntries := false
           isActive := true },
         { date := dateKey (ld D1)
           entryPairs := [⟨some D1, none, 0, false, true⟩]
           totalTime := 0
           formattedTotal := formatDuration 0
           hasMissingEntries := true
           isActive := false }]) := by
  have hne2 : ¬ (D2 < D1) := by omega
  constructor
  · intro hk
    simp [processTimeEntries, groupByDate, insertByDate, hk, sortByTs,
      insertAscEntry, hne2, pairLoop, cleanupDailyRecords, sortRecDesc,
      insertDescRecord, fixLastPair, cleanupMiddleRecord, cleanupPair,
      isCompletePair, List.getLast?]
  · intro hkB
    have hne : ¬ (dateKey (ld D1) = dateKey (ld D2)) := by
      intro h
      rw [h, strLt_irrefl] at hkB
      cases hkB
    simp [processTimeEntries, groupByDate, insertByDate, hne, sortByTs,
      insertAscEntry, hne2, pairLoop, cleanupDailyRecords, sortRecDesc,
      insertDescRecord, hkB, fixLastPair, cleanupMiddleRecord, cleanupPair,
      isCompletePair, List.getLast?]

/-- C6 witness: both cases at concrete instants — two same-day clock-ins
(2025-01-01T22:20 and 23:30 UTC) and two cross-day clock-ins
(2025-01-01T23:30 and 2025-01-02T23:30 UTC). -/
theorem processTimeEntries_two_clockIns_witness :
    processTimeEntries utcLocal 1735775000000
      [⟨1735770000000, true⟩, ⟨1735774200000, true⟩] =
      [{ date := "2025-01-01"
         entryPairs := [⟨some 1735770000000, none, 5000000, false, true⟩,
                        ⟨some 1735774200000, none, 800000, true, false⟩]
         totalTime := 800000
         formattedTotal := "00:13:20"
         hasMissingEntries := true
         isActive := true }] ∧
    processTimeEntries utcLocal 1735861000000
      [⟨1735774200000, true⟩, ⟨1735860600000, true⟩] =
      [{ date := "2025-01-02"
         entryPairs := [⟨some 1735860600000, none, 400000, true, false⟩]
         totalTime := 400000
         formattedTotal := "00:06:40"
         hasMissingEntries := false
         isActive := true },
       { date := "2025-01-01"
         entryPairs := [⟨some 1735774200000, none, 0, false, true⟩]
         totalTime := 0
         formattedTotal := "00:00:00"
         hasMissingEntries := true
         isActive := false }] := by
  constructor
  · exact (processTimeEntries_two_clockIns utcLocal 1735775000000
      1735770000000 1735774200000 (by decide)).1 rfl
  · exact (processTimeEntries_two_clockIns utcLocal 1735861000000
      1735774200000 1735860600000 (by decide)).2 rfl

/-- C7: a lone clock-out at any instant yields exactly one `DailyRecord`
holding exactly one pair with no clock-in, that clock-out, zero duration and
the missing flag, and the record's `hasMissingEntries` is set. -/
theorem processTimeEntries_orphan_clockOut (ld : Int → LocalDate)
    (now t0 : Int) :
    processTimeEntries ld now [⟨t0, false⟩] =
      [{ date := dateKey (ld t0)
         entryPairs := [⟨none, some t0, 0, false, true⟩]
         totalTime := 0
         formattedTotal := "00:00:00"
         hasMissingEntries := true
         isActive := false }] :=
  rfl

/-- C9: the reconstruction is total — for every local-day map, every instant
and every entry list it returns a list of daily records (the embedding is a
total function, there is no failure path), and the empty input yields the
empty output. -/
theorem processTimeEntries_total (ld : Int → LocalDate) (now : Int)
    (entries : List TimeStampEntry) :
    (∃ rs : List DailyRecord, processTimeEntries ld now entries = rs) ∧
    processTimeEntries ld now [] = [] :=
  ⟨⟨_, rfl⟩, rfl⟩

/-- C8: the append-at-now path rejects a request whose kind equals the kind
of the latest record (the error names the present state), and in particular
a second clockIn() issued after a successful clockIn() performed later than
every pre-existing record fails with "already clocked in".  In the `Except`
model an error result creates no record and leaves the log unchanged. -/
theorem clockInOut_rejects_same_kind (log : List WorkRecord) (kind : Bool)
    (now now2 : Int) (id1 id2 : String) (r : WorkRecord) :
    ((sortDescRecords log).head? = some r → r.clock_in = kind →
      clockInOut log kind now id1 =
        .error ("already clocked " ++ (if kind then "in" else "out")))
    ∧ ((∀ x ∈ log, x.timestamp < now) →
       ∀ log1, clockInOut log true now id1 = Except.ok log1 →
         clockInOut log1 true now2 id2 = .error "already clocked in") := by
  constructor
  · intro hhead hkind
    unfold clockInOut isCurrentlyClockedIn findLatestQuery
    cases hs : sortDescRecords log with
    | nil => rw [hs] at hhead; simp at hhead
    | cons x xs =>
        rw [hs] at hhead
        simp only [List.head?_cons, Option.some.injEq] at hhead
        subst hhead
        simp [List.take, hkind]
  · intro hlt log1 hok
    have hlog1 : log ++ [⟨id1, now, true⟩] = log1 := by
      unfold clockInOut isCurrentlyClockedIn findLatestQuery at hok
      repeat' split at hok
      all_goals simp_all
    subst hlog1
    unfold clockInOut isCurrentlyClockedIn findLatestQuery
    rw [sortDescRecords_append_latest log _ hlt]
    simp [List.take]

/-- C8 witness: on the one-record log `[clock-out a@1000]` requesting
clock-out again fails with "already clocked out", and after a successful
clock-in at 2000 a second clock-in at 3000 fails with "already clocked
in". -/
theorem clockInOut_rejects_same_kind_witness :
    clockInOut [⟨"a", 1000, false⟩] false 2000 "b" =
      .error "already clocked out" ∧
    clockInOut [⟨"a", 1000, false⟩, ⟨"b", 2000, true⟩] true 3000 "c" =
      .error "already clocked in" := by
  constructor
  · exact (clockInOut_rejects_same_kind [⟨"a", 1000, false⟩] false 2000 3000
      "b" "c" ⟨"a", 1000, false⟩).1 rfl rfl
  · exact (clockInOut_rejects_same_kind [⟨"a", 1000, false⟩] true 2000 3000
      "b" "c" ⟨"a", 1000, false⟩).2 (by decide)
      [⟨"a", 1000, false⟩, ⟨"b", 2000, true⟩] rfl

/-- C10: on an empty log `isCurrentlyClockedIn` reports "not clocked in"
rather than an error, and an error is produced exactly when the underlying
latest-record query itself fails. -/
theorem isCurrentlyClockedIn_empty_log :
    isCurrentlyClockedIn (findLatestQuery []) = .ok false ∧
    ∀ e : String, isCurrentlyClockedIn (.error e) =
      .error ("failed to find latest work clock record: " ++ e) :=
  ⟨rfl, fun _ => rfl⟩
